import Mathlib

/-!
Verification of the VCF parsing and transcript-selection core of the
ngs-analysis repository, embedded from src/lib/python/ngs/vcf.py.

Python dictionaries are modelled as association lists in insertion order
with a last-binding-wins lookup; Python exceptions are modelled as none
(or as an explicit error value carrying the state visible to the caller
at the moment of the raise); Python sorted, a stable sort, is modelled by
insertion sort with the corresponding relation, which computes the same
unique stable result.
-/

namespace NgsVcf

/-- Split a character list at every character satisfying p, keeping empty
segments: the behaviour of the Python str.split with an explicit
one-character separator, with p testing equality with that separator. -/
def splitOnPred (p : Char → Bool) : List Char → List (List Char)
  | [] => [[]]
  | c :: rest =>
    if p c then [] :: splitOnPred p rest
    else
      match splitOnPred p rest with
      | [] => [[c]]
      | h :: t => (c :: h) :: t

/-- Python str.split(sep) for a one-character separator sep. -/
def pySplitChar (sep : Char) (s : String) : List String :=
  (splitOnPred (fun c => c = sep) s.toList).map String.mk

/-- Python str.strip: drop leading and trailing whitespace. -/
def pyStrip (s : String) : String :=
  String.mk (((s.toList.dropWhile Char.isWhitespace).reverse.dropWhile
    Char.isWhitespace).reverse)

/-- Python str.split() with no separator: split on whitespace runs and drop
empty fields. -/
def pySplitWs (s : String) : List String :=
  ((splitOnPred Char.isWhitespace s.toList).filter (fun l => l ≠ [])).map String.mk

/-- Python sep.join(l). -/
def pyJoin (sep : String) : List String → String
  | [] => ""
  | [x] => x
  | x :: y :: rest => x ++ sep ++ pyJoin sep (y :: rest)

/-- Lookup in a Python dict built by successive insertions, modelled as an
association list in insertion order: the last binding for a key wins. -/
def dictLast {α : Type} : List (String × α) → String → Option α
  | [], _ => none
  | p :: t, k =>
    match dictLast t k with
    | some v => some v
    | none => if p.1 = k then some p.2 else none

/-- Value of a nonempty all-digit character list. -/
def digitsVal (ds : List Char) : Option Nat :=
  if ds ≠ [] ∧ ds.all Char.isDigit then
    some (ds.foldl (fun a c => a * 10 + (c.toNat - 48)) 0)
  else none

/-- Python int(s): optional surrounding whitespace, optional sign, at least
one decimal digit; none models the ValueError raised otherwise. -/
def pyInt (s : String) : Option Int :=
  match (pyStrip s).toList with
  | '-' :: ds => (digitsVal ds).map (fun n => -(n : Int))
  | '+' :: ds => (digitsVal ds).map (fun n => (n : Int))
  | ds => (digitsVal ds).map (fun n => (n : Int))

/-- Python list indexing l[i]: a negative index counts from the end of the
list; none models IndexError. -/
def pyIndex {α : Type} (l : List α) (i : Int) : Option α :=
  if 0 ≤ i then l.get? i.toNat
  else if (-i).toNat ≤ l.length then l.get? (l.length - (-i).toNat)
  else none

/-- Python string comparison, charwise by code point. -/
def pyStrLtChars : List Char → List Char → Bool
  | [], [] => false
  | [], _ :: _ => true
  | _ :: _, [] => false
  | a :: as, b :: bs =>
    if a.toNat < b.toNat then true
    else if b.toNat < a.toNat then false
    else pyStrLtChars as bs

/-- Order relation of Python string comparison. -/
def pyStrLe (a b : String) : Prop := pyStrLtChars b.toList a.toList = false

instance (a b : String) : Decidable (pyStrLe a b) := by
  unfold pyStrLe; infer_instance

/-- Python sorted on a list of strings: the unique stable ascending sort. -/
def pySortStrings (l : List String) : List String :=
  List.insertionSort pyStrLe l

/-- Map a fallible function over a list, failing as soon as any element
fails, mirroring a Python loop body that may raise. -/
def optMapList {α β : Type} (f : α → Option β) : List α → Option (List β)
  | [] => some []
  | a :: l =>
    match f a with
    | none => none
    | some b => (optMapList f l).map (fun bs => b :: bs)

/-- vcf.py is_meta, lines 23-29: a line whose first two characters are ##. -/
def is_meta (line : String) : Bool :=
  ['#', '#'].isPrefixOf line.toList

/-- vcf.py is_header, lines 31-49. Returns some b on a normal Boolean
return; none models the IndexError the Python code raises when the token
list of a # line is too short for the three positional checks. -/
def is_header (line : String) : Option Bool :=
  if ¬ (['#'].isPrefixOf line.toList) then some false
  else if ['#', '#'].isPrefixOf line.toList then some false
  else
    match pySplitWs (pyStrip (String.mk (line.toList.drop 1))) with
    | [] => none
    | [t0] => if t0 ≠ "CHROM" then some false else none
    | [t0, t1] =>
      if t0 ≠ "CHROM" then some false
      else if t1 ≠ "POS" then some false
      else none
    | t0 :: t1 :: t2 :: _ =>
      if t0 ≠ "CHROM" then some false
      else if t1 ≠ "POS" then some false
      else if t2 ≠ "ID" then some false
      else some true

/-- vcf.py set_column_names, lines 51-60: none models both the ValueError
raised on a non-header line and an IndexError escaping is_header. -/
def set_column_names (header_line : String) : Option (List String) :=
  match is_header header_line with
  | none => none
  | some false => none
  | some true => some (pySplitWs (pyStrip (String.mk (header_line.toList.drop 1))))

/-- vcf.py jump2variants, lines 62-74, applied to the list of lines of the
file: discard leading meta lines, set the column names from the first
non-meta line, and leave the remaining lines for the variant loop. When
the input is exhausted Python readline yields the empty string, which is
not a meta line and fails set_column_names, hence none on []. -/
def jump2variants : List String → Option (List String × List String)
  | [] => none
  | line :: rest =>
    if is_meta line then jump2variants rest
    else (set_column_names line).map (fun cols => (cols, rest))

/-- vcf.py get_sample_names, lines 146-151: the column names from index 9. -/
def get_sample_names (column_names : List String) : List String :=
  column_names.drop 9

/-- View of one parsed variant row (the dictionary built by parse_line,
lines 106-118) restricted to the columns the genotype functions read:
REF, ALT, FORMAT and the sample columns in schema order, each sample
paired with its raw column value. -/
structure Variant where
  REF : String
  ALT : String
  FORMAT : String
  samples : List (String × String)

/-- vcf.py parse_samples, lines 153-165: map each sample name to the dict
of the zip of the colon-split FORMAT names with the colon-split sample
values. Python zip truncates to the shorter of the two lists and the code
performs no arity check, so no error is possible here. -/
def parse_samples (v : Variant) : List (String × List (String × String)) :=
  v.samples.map (fun sc =>
    (sc.1, (pySplitChar ':' v.FORMAT).zip (pySplitChar ':' sc.2)))

/-- vcf.py get_sample_gt, lines 167-210. none models the KeyError on an
unknown sample or missing GT field, the ValueError from int on a
non-numeric allele token and the IndexError on an allele index outside
the Python index range of the candidate allele list. -/
def get_sample_gt (v : Variant) (sample : String) (phased : Bool) : Option String :=
  let sep : Char := if phased then '|' else '/'
  match dictLast (parse_samples v) sample with
  | none => none
  | some field2val =>
    match dictLast field2val "GT" with
    | none => none
    | some alleles_str =>
      let alleles := pySplitChar sep alleles_str
      let possible_genotypes := v.REF :: pySplitChar ',' v.ALT
      match optMapList (fun a =>
          if a = "." then some "N"
          else (pyInt a).bind (pyIndex possible_genotypes)) alleles with
      | none => none
      | some bases =>
        let bases2 := if phased then bases else pySortStrings bases
        some (pyJoin (String.mk [sep]) bases2)

/-- Character positions at which c occurs, counting from offset i. -/
def charIdxsAux (c : Char) (i : Nat) : List Char → List Nat
  | [] => []
  | d :: t => if d = c then i :: charIdxsAux c (i + 1) t else charIdxsAux c (i + 1) t

/-- Character positions at which c occurs in cs, from position zero. -/
def charIdxs (c : Char) (cs : List Char) : List Nat :=
  charIdxsAux c 0 cs

/-- Group 1 of the Python search for the pattern dot-plus followed by an
opening parenthesis in vcf.py line 352: with the greedy repetition the
match runs from the start of the entry to the last opening parenthesis
preceded by at least one character; none models the AttributeError when
no such parenthesis exists. -/
def effect_val_of (s : String) : Option String :=
  let cs := s.toList
  match ((charIdxs '(' cs).filter (fun i => 1 ≤ i)).getLast? with
  | none => none
  | some i => some (String.mk (cs.take i))

/-- Group 1 of the Python search for a parenthesized dot-plus group in
vcf.py line 353: the text between the first opening parenthesis that has
a closing parenthesis at least two positions later and the last closing
parenthesis of the entry; none models the AttributeError when the
pattern does not match. -/
def attrs_str_of (s : String) : Option String :=
  let cs := s.toList
  match (charIdxs ')' cs).getLast? with
  | none => none
  | some j =>
    match ((charIdxs '(' cs).filter (fun i => i + 2 ≤ j)).head? with
    | none => none
    | some i => some (String.mk ((cs.drop (i + 1)).take (j - (i + 1))))

/-- Attribute list of one effect entry, vcf.py lines 352-353: the effect
type prepended to the pipe-split parenthesized attributes. -/
def entry_attrs (s : String) : Option (List String) :=
  match effect_val_of s, attrs_str_of s with
  | some v, some a => some (v :: pySplitChar '|' a)
  | _, _ => none

/-- The Effect namedtuple of vcf.py lines 306-315: ten positional string
fields. -/
structure Effect where
  effect : String
  impact : String
  functional_class : String
  codon_change : String
  aa_change : String
  gene : String
  gene_biotype : String
  coding : String
  transcript : String
  exon : String
deriving DecidableEq

/-- Effect tuple construction from the sliced attribute list, vcf.py line
360: the namedtuple needs exactly ten values, so none models the
TypeError raised on an under-length list. -/
def mkEffect : List String → Option Effect
  | [e, i, fc, cc, ac, g, gb, cd, tr, ex] => some ⟨e, i, fc, cc, ac, g, gb, cd, tr, ex⟩
  | _ => none

/-- The per-entry loop of vcf.py lines 351-361: an entry whose attribute
count exceeds the ten tuple fields is skipped, an entry that fails either
regular-expression search or has fewer than ten attributes aborts the
whole parse, and every other entry contributes one Effect in order. -/
def decode_entries : List String → Option (List Effect)
  | [] => some []
  | s :: rest =>
    match entry_attrs s with
    | none => none
    | some attrs =>
      if attrs.length > 10 then decode_entries rest
      else
        match mkEffect attrs with
        | none => none
        | some e => (decode_entries rest).map (fun es => e :: es)

/-- The marker searched for in the INFO column. -/
def effMarker : List Char := ['E', 'F', 'F', '=']

/-- Text after the first occurrence of the EFF= marker, to the end of the
string: group 1 of the Python search in vcf.py line 348. none models the
AttributeError raised when the marker is absent. -/
def afterEFF : List Char → Option (List Char)
  | [] => none
  | c :: rest =>
    if effMarker.isPrefixOf (c :: rest) then some ((c :: rest).drop 4)
    else afterEFF rest

/-- Marker extraction from an INFO string, vcf.py line 348. -/
def extract_eff (info : String) : Option String :=
  (afterEFF info.toList).map String.mk

/-- vcf.py parse_effects, lines 335-362, as a function of the
effect-to-priority table and the INFO column string: extract the text
after EFF=, split it on commas, decode the entries, and return the kept
effects sorted in ascending priority rank. Ranking every kept effect
requires its type to be present in the table, so a missing type makes the
whole parse fail, modelling the KeyError raised inside the sort key. -/
def parse_effects (effect2priority : List (String × Nat)) (info : String) :
    Option (List Effect) :=
  match extract_eff info with
  | none => none
  | some effect_info_str =>
    match decode_entries (pySplitChar ',' effect_info_str) with
    | none => none
    | some effects =>
      match optMapList (fun e =>
          (dictLast effect2priority e.effect).map (fun r => (e, r))) effects with
      | none => none
      | some keyed =>
        some ((List.insertionSort (fun x y : Effect × Nat => x.2 ≤ y.2) keyed).map
          Prod.fst)

/-- vcf.py select_highest_priority_effect, lines 364-381: the head of the
parsed effect list, or an inner none (the Python None return, not an
error) when the list is empty. -/
def select_highest_priority_effect (effect2priority : List (String × Nat))
    (info : String) : Option (Option Effect) :=
  (parse_effects effect2priority info).map (fun effects => effects.head?)

/-- The default prioritized effect list of vcf.py lines 265-303. -/
def effects_prioritized : List String :=
  ["RARE_AMINO_ACID", "SPLICE_SITE_ACCEPTOR", "SPLICE_SITE_DONOR", "START_LOST",
   "EXON_DELETED", "FRAME_SHIFT", "STOP_GAINED", "STOP_LOST",
   "NON_SYNONYMOUS_CODING", "CODON_CHANGE", "CODON_INSERTION",
   "CODON_CHANGE_PLUS_CODON_INSERTION", "CODON_DELETION",
   "CODON_CHANGE_PLUS_CODON_DELETION", "UTR_5_DELETED", "UTR_3_DELETED",
   "SYNONYMOUS_START", "NON_SYNONYMOUS_START", "START_GAINED",
   "SYNONYMOUS_CODING", "SYNONYMOUS_STOP", "NON_SYNONYMOUS_STOP",
   "UTR_5_PRIME", "UTR_3_PRIME", "REGULATION", "UPSTREAM", "DOWNSTREAM",
   "GENE", "TRANSCRIPT", "EXON", "INTRON_CONSERVED", "INTRON", "INTRAGENIC",
   "INTERGENIC", "INTERGENIC_CONSERVED", "NONE", "CHROMOSOME", "CUSTOM", "CDS"]

/-- vcf.py _set_effect2priority, lines 317-323: rank each effect type by
its zero-based position in the prioritized list. -/
def effect2priority_of (l : List String) : List (String × Nat) :=
  l.zip (List.range l.length)

/-- Update the binding of key k in an association list with unique keys,
appending a binding built from the default when the key is absent: the
effect of the Python setdefault chain followed by an assignment. -/
def alUpdate {α : Type} (l : List (String × α)) (k : String) (dflt : α) (f : α → α) :
    List (String × α) :=
  match l with
  | [] => [(k, f dflt)]
  | p :: t => if p.1 = k then (p.1, f p.2) :: t else p :: alUpdate t k dflt f

/-- The aggregate state of the multi-file scan: the three-level
gene-transcript-effect count table and the effect-to-impact table, both
owned by the caller and mutated in place by the Python code. -/
structure AccState where
  g2t2e2c : List (String × List (String × List (String × Nat)))
  effect2impact : List (String × String)
deriving DecidableEq

/-- The nested count increment of vcf.py line 438. -/
def incr_count (m : List (String × List (String × List (String × Nat))))
    (a b c : String) : List (String × List (String × List (String × Nat))) :=
  alUpdate m a [] (fun t2 => alUpdate t2 b [] (fun e2 => alUpdate e2 c 0 (fun n => n + 1)))

/-- One iteration of the effect loop of vcf.py lines 434-448: increment
the count for the gene, transcript and effect type, then record the
impact on first observation, or abort the scan through sys.exit when a
previously recorded impact differs from the current one. The error value
carries the message written to stderr and the state of the caller-owned
tables at the abort; note the count increment precedes the check. -/
def count_effect (st : AccState) (eff : Effect) : Except (String × AccState) AccState :=
  let st1 : AccState :=
    ⟨incr_count st.g2t2e2c eff.gene eff.transcript eff.effect, st.effect2impact⟩
  match dictLast st1.effect2impact eff.effect with
  | none => .ok ⟨st1.g2t2e2c, st1.effect2impact ++ [(eff.effect, eff.impact)]⟩
  | some imp =>
    if imp = eff.impact then .ok st1
    else
      .error ("Multiple impacts for effect " ++ eff.effect ++ ": " ++ eff.impact ++
        ", " ++ imp ++ "\nExiting.", st1)

/-- The effect loop over the list selected for one variant. In the
highest-priority mode the list holds the possibly absent single effect,
and attribute access on the Python None placeholder raises
AttributeError before any table is touched. -/
def count_opt_effects :
    AccState → List (Option Effect) → Except (String × AccState) AccState
  | st, [] => .ok st
  | st, none :: _ => .error ("AttributeError: NoneType has no attribute gene", st)
  | st, some e :: rest =>
    match count_effect st e with
    | .ok st2 => count_opt_effects st2 rest
    | .error err => .error err

/-- The per-variant body of vcf.py lines 425-448, as a function of the
INFO column of the variant: build either the one-element list holding the
highest-priority effect or the full decoded effect list, then run the
effect loop on it. -/
def count_one_variant (effect2priority : List (String × Nat))
    (highest_priority : Bool) (st : AccState) (info : String) :
    Except (String × AccState) AccState :=
  if highest_priority then
    match select_highest_priority_effect effect2priority info with
    | none => .error ("effect parse failure", st)
    | some h => count_opt_effects st [h]
  else
    match parse_effects effect2priority info with
    | none => .error ("effect parse failure", st)
    | some effects => count_opt_effects st (effects.map some)

/-- vcf.py count_transcript_effects_single, lines 414-450, over the
stream of the INFO columns of the variant rows of one file; the header
skipping and row splitting of the file object are modelled separately by
jump2variants and the schema functions. -/
def count_transcript_effects_single (effect2priority : List (String × Nat))
    (highest_priority : Bool) :
    AccState → List String → Except (String × AccState) AccState
  | st, [] => .ok st
  | st, info :: rest =>
    match count_one_variant effect2priority highest_priority st info with
    | .ok st2 =>
      count_transcript_effects_single effect2priority highest_priority st2 rest
    | .error err => .error err

/-- The inner helper get_high_impact_count of vcf.py lines 471-479: sum
the counts of the effect types whose recorded impact is exactly the
label HIGH; none models the KeyError on an effect type absent from
effect2impact. -/
def get_high_impact_count (effect2impact : List (String × String))
    (e2c : List (String × Nat)) : Option Nat :=
  match e2c with
  | [] => some 0
  | p :: rest =>
    match dictLast effect2impact p.1 with
    | none => none
    | some imp =>
      (get_high_impact_count effect2impact rest).map
        (fun acc => if imp = "HIGH" then acc + p.2 else acc)

/-- Descending stable sort of name-value pairs by value: Python sorted
with the second tuple component as key and reverse set. -/
def sortByScoreDesc (l : List (String × Nat)) : List (String × Nat) :=
  List.insertionSort (fun x y : String × Nat => y.2 ≤ x.2) l

/-- The inner helper get_transcript_w_most_high_impact of vcf.py lines
481-509. The outer none models an exception escaping the scoring; the
inner none is the Python False return for a gene with no usable
transcript; otherwise the name of the selected transcript is returned. -/
def get_transcript_w_most_high_impact (effect2impact : List (String × String))
    (t2e2c : List (String × List (String × Nat)))
    (transcript2len : List (String × Nat)) : Option (Option String) :=
  let usable := t2e2c.filter (fun te => (dictLast transcript2len te.1).isSome)
  if usable.length = 0 then some none
  else
    match optMapList (fun te =>
        (get_high_impact_count effect2impact te.2).map (fun c => (te.1, c))) usable with
    | none => none
    | some t_counts =>
      match sortByScoreDesc t_counts with
      | [] => none
      | top :: rest =>
        let tied := (top :: rest).filter (fun x => x.2 = top.2)
        match tied with
        | [x] => some (some x.1)
        | _ =>
          match optMapList (fun tc =>
              (dictLast transcript2len tc.1).map (fun n => (tc.1, n))) tied with
          | none => none
          | some with_lens =>
            match sortByScoreDesc with_lens with
            | [] => none
            | best :: _ => some (some best.1)

/-- The gene loop of vcf.py select_transcript_for_gene, lines 511-519:
skip a gene whose helper result is Python-falsy, which covers both the
False return for a gene with no usable transcript and a selected
transcript whose name is the empty string, and record the selected
transcript for every other gene. -/
def select_genes (effect2impact : List (String × String))
    (transcript2len : List (String × Nat)) :
    List (String × List (String × List (String × Nat))) →
    Option (List (String × String))
  | [] => some []
  | g :: rest =>
    match get_transcript_w_most_high_impact effect2impact g.2 transcript2len with
    | none => none
    | some r =>
      match select_genes effect2impact transcript2len rest with
      | none => none
      | some res =>
        match r with
        | none => some res
        | some t => if t = "" then some res else some ((g.1, t) :: res)

/-- vcf.py select_transcript_for_gene, lines 464-519. -/
def select_transcript_for_gene
    (g2t2e2c : List (String × List (String × List (String × Nat))))
    (effect2impact : List (String × String))
    (transcript2len : List (String × Nat)) : Option (List (String × String)) :=
  select_genes effect2impact transcript2len g2t2e2c

theorem optMapList_forall₂ {α β : Type} {f : α → Option β} :
    ∀ {l : List α} {l2 : List β}, optMapList f l = some l2 →
      List.Forall₂ (fun a b => f a = some b) l l2 := by
  intro l
  induction l with
  | nil => intro l2 h; cases h; exact List.Forall₂.nil
  | cons a t ih =>
    intro l2 h
    unfold optMapList at h
    cases hfa : f a with
    | none => rw [hfa] at h; cases h
    | some b =>
      rw [hfa] at h
      cases hrest : optMapList f t with
      | none => rw [hrest] at h; cases h
      | some bs =>
        rw [hrest] at h
        cases h
        exact List.Forall₂.cons hfa (ih hrest)

theorem optMapList_of_forall_isSome {α β : Type} {f : α → Option β} :
    ∀ {l : List α}, (∀ a ∈ l, (f a).isSome) → ∃ l2, optMapList f l = some l2 := by
  intro l
  induction l with
  | nil => intro _; exact ⟨[], rfl⟩
  | cons a t ih =>
    intro h
    obtain ⟨b, hb⟩ := Option.isSome_iff_exists.mp (h a (List.mem_cons_self a t))
    obtain ⟨bs, hbs⟩ := ih (fun x hx => h x (List.mem_cons_of_mem a hx))
    exact ⟨b :: bs, by unfold optMapList; rw [hb, hbs]; rfl⟩

theorem optMapList_eq_none_of_mem {α β : Type} {f : α → Option β} :
    ∀ {l : List α} {a : α}, a ∈ l → f a = none → optMapList f l = none := by
  intro l
  induction l with
  | nil => intro a h; cases h
  | cons x t ih =>
    intro a h hfa
    unfold optMapList
    rcases List.mem_cons.mp h with heq | hmem
    · subst heq; rw [hfa]
    · cases hfx : f x with
      | none => rfl
      | some b => rw [ih hmem hfa]; rfl

theorem optMapList_congr {α β : Type} {f g : α → Option β} :
    ∀ {l : List α} {l2 : List β},
      (∀ a ∈ l, ∀ b, f a = some b → g a = some b) →
      optMapList f l = some l2 → optMapList g l = some l2 := by
  intro l
  induction l with
  | nil => intro l2 _ h; exact h
  | cons a t ih =>
    intro l2 hfg h
    unfold optMapList at h ⊢
    cases hfa : f a with
    | none => rw [hfa] at h; cases h
    | some b =>
      rw [hfa] at h
      cases hrest : optMapList f t with
      | none => rw [hrest] at h; cases h
      | some bs =>
        rw [hrest] at h
        rw [hfg a (List.mem_cons_self a t) b hfa,
          ih (fun x hx => hfg x (List.mem_cons_of_mem a hx)) hrest]
        exact h

theorem forall₂_mem_left {α β : Type} {R : α → β → Prop} :
    ∀ {l : List α} {l2 : List β}, List.Forall₂ R l l2 → ∀ {a}, a ∈ l →
      ∃ b ∈ l2, R a b := by
  intro l l2 h
  induction h with
  | nil => intro a ha; cases ha
  | cons hr _ ih =>
    intro a ha
    rcases List.mem_cons.mp ha with heq | hmem
    · subst heq; exact ⟨_, List.mem_cons_self _ _, hr⟩
    · obtain ⟨b, hb, hrb⟩ := ih hmem
      exact ⟨b, List.mem_cons_of_mem _ hb, hrb⟩

theorem forall₂_mem_right {α β : Type} {R : α → β → Prop} :
    ∀ {l : List α} {l2 : List β}, List.Forall₂ R l l2 → ∀ {b}, b ∈ l2 →
      ∃ a ∈ l, R a b := by
  intro l l2 h
  induction h with
  | nil => intro b hb; cases hb
  | cons hr _ ih =>
    intro b hb
    rcases List.mem_cons.mp hb with heq | hmem
    · subst heq; exact ⟨_, List.mem_cons_self _ _, hr⟩
    · obtain ⟨a, ha, hra⟩ := ih hmem
      exact ⟨a, List.mem_cons_of_mem _ ha, hra⟩

theorem dictLast_eq_none_iff {α : Type} :
    ∀ (l : List (String × α)) (k : String),
      dictLast l k = none ↔ k ∉ l.map Prod.fst := by
  intro l k
  induction l with
  | nil => simp [dictLast]
  | cons p t ih =>
    unfold dictLast
    cases h : dictLast t k with
    | some v =>
      have hk : k ∈ List.map Prod.fst t := by
        by_contra hc
        have hn := ih.mpr hc
        rw [hn] at h
        cases h
      simp only [List.map_cons, List.mem_cons]
      constructor
      · intro hx; cases hx
      · intro hx; exact absurd (Or.inr hk) hx
    | none =>
      have hnot := ih.mp h
      by_cases hk : p.1 = k
      · simp [hk]
      · simp only [List.map_cons, List.mem_cons]
        simp only [hk, hnot, if_false]
        constructor
        · intro _ hx
          rcases hx with hx1 | hx2
          · exact hk hx1.symm
          · exact hx2
        · intro _; trivial

theorem dictLast_map {α β : Type} (g : String → α → β) :
    ∀ (l : List (String × α)) (k : String),
      dictLast (l.map (fun p => (p.1, g p.1 p.2))) k = (dictLast l k).map (g k) := by
  intro l k
  induction l with
  | nil => rfl
  | cons p t ih =>
    simp only [List.map_cons]
    unfold dictLast
    rw [ih]
    cases dictLast t k with
    | some v => rfl
    | none =>
      by_cases hk : p.1 = k
      · subst hk; simp
      · simp [hk]

theorem sortDesc_perm (l : List (String × Nat)) : List.Perm (sortByScoreDesc l) l :=
  List.perm_insertionSort _ l

theorem sortDesc_sorted (l : List (String × Nat)) :
    List.Sorted (fun x y : String × Nat => y.2 ≤ x.2) (sortByScoreDesc l) := by
  haveI : IsTotal (String × Nat) (fun x y : String × Nat => y.2 ≤ x.2) :=
    ⟨fun a b => Nat.le_total b.2 a.2⟩
  haveI : IsTrans (String × Nat) (fun x y : String × Nat => y.2 ≤ x.2) :=
    ⟨fun _ _ _ h1 h2 => Nat.le_trans h2 h1⟩
  exact List.sorted_insertionSort _ l

theorem sortDesc_head_max {l : List (String × Nat)} {top : String × Nat}
    {rest : List (String × Nat)} (h : sortByScoreDesc l = top :: rest) :
    top ∈ l ∧ ∀ x ∈ l, x.2 ≤ top.2 := by
  have hperm := sortDesc_perm l
  constructor
  · exact hperm.mem_iff.mp (by rw [h]; exact List.mem_cons_self top rest)
  · intro x hx
    have hx2 : x ∈ sortByScoreDesc l := hperm.mem_iff.mpr hx
    rw [h] at hx2
    rcases List.mem_cons.mp hx2 with heq | hmem
    · subst heq; exact Nat.le_refl _
    · have hs := sortDesc_sorted l
      rw [h] at hs
      exact (List.pairwise_cons.mp hs).1 x hmem

theorem sortDesc_ne_nil {l : List (String × Nat)} (h : l ≠ []) :
    sortByScoreDesc l ≠ [] := by
  intro hx
  have hlen := (sortDesc_perm l).length_eq
  rw [hx] at hlen
  simp only [List.length_nil] at hlen
  exact h (List.length_eq_zero.mp hlen.symm)

/-- Decidable occurrence check for a contiguous pattern, used to relate
the claim-side absence of the marker to the search. -/
def hasInfix (pat : List Char) : List Char → Bool
  | [] => pat.isPrefixOf []
  | c :: rest => pat.isPrefixOf (c :: rest) || hasInfix pat rest

theorem no_marker_of_hasInfix_false {pat : List Char} :
    ∀ {cs : List Char}, hasInfix pat cs = false →
      ∀ pre post : List Char, cs ≠ pre ++ pat ++ post := by
  intro cs
  induction cs with
  | nil =>
    intro h pre post hEq
    have hlen := congrArg List.length hEq
    simp only [List.length_nil, List.length_append] at hlen
    have hpat : pat = [] := List.length_eq_zero.mp (by omega)
    have hp : pat.isPrefixOf ([] : List Char) = false := h
    rw [hpat] at hp
    cases hp
  | cons c rest ih =>
    intro h pre post hEq
    have h1 : pat.isPrefixOf (c :: rest) = false := by
      cases hp : pat.isPrefixOf (c :: rest)
      · rfl
      · exfalso
        unfold hasInfix at h
        rw [hp] at h
        simp at h
    have h2 : hasInfix pat rest = false := by
      unfold hasInfix at h
      rw [h1] at h
      simpa using h
    rcases pre with _ | ⟨d, pre2⟩
    · rw [List.nil_append] at hEq
      have : pat.isPrefixOf (c :: rest) = true := by
        rw [hEq]
        exact List.isPrefixOf_iff_prefix.mpr (List.prefix_append pat post)
      rw [this] at h1
      cases h1
    · simp only [List.cons_append] at hEq
      injection hEq with hc hrest
      exact ih h2 pre2 post hrest

theorem afterEFF_of_no_marker :
    ∀ {cs : List Char}, (∀ pre post : List Char, cs ≠ pre ++ effMarker ++ post) →
      afterEFF cs = none := by
  intro cs
  induction cs with
  | nil => intro _; rfl
  | cons c rest ih =>
    intro h
    unfold afterEFF
    cases hp : effMarker.isPrefixOf (c :: rest) with
    | true =>
      exfalso
      obtain ⟨t, ht⟩ := List.isPrefixOf_iff_prefix.mp hp
      exact h [] t (by rw [← ht]; rfl)
    | false =>
      simp only [Bool.false_eq_true, if_false]
      exact ih (fun pre post hEq => h (c :: pre) post (by rw [hEq]; rfl))

/-- C6: for every record whose INFO column contains no occurrence of the
literal marker EFF=, effect decoding fails immediately, with no partial
result: parse_effects returns the error value none. -/
theorem C6_no_marker_decode_fails (effect2priority : List (String × Nat))
    (info : String)
    (h : ∀ pre post : List Char, info.toList ≠ pre ++ effMarker ++ post) :
    parse_effects effect2priority info = none := by
  unfold parse_effects extract_eff
  rw [afterEFF_of_no_marker h]
  rfl

/-- C6 witness: a concrete INFO column without the marker. -/
theorem C6_no_marker_decode_fails_witness :
    (∀ pre post : List Char, "DP=10;AF=0.5".toList ≠ pre ++ effMarker ++ post) ∧
    parse_effects (effect2priority_of effects_prioritized) "DP=10;AF=0.5" = none := by
  have hno := @no_marker_of_hasInfix_false effMarker "DP=10;AF=0.5".toList
    (by decide)
  exact ⟨hno, C6_no_marker_decode_fails (effect2priority_of effects_prioritized)
    "DP=10;AF=0.5" hno⟩

theorem mkEffect_eq_none_of_length_lt {l : List String} (h : l.length < 10) :
    mkEffect l = none := by
  rcases l with _ | ⟨a1, _ | ⟨a2, _ | ⟨a3, _ | ⟨a4, _ | ⟨a5, _ | ⟨a6, _ | ⟨a7,
    _ | ⟨a8, _ | ⟨a9, _ | ⟨a10, t⟩⟩⟩⟩⟩⟩⟩⟩⟩⟩ <;>
    first
      | rfl
      | (exfalso; simp only [List.length_cons] at h; omega)

/-- C10: an effect entry whose attribute count is strictly below ten makes
the whole decode fail with an error, wherever the entry sits in the EFF
list; only over-length entries are silently dropped. The second part
witnesses the failure through the full parse on a concrete record with a
two-attribute entry. -/
theorem C10_short_entry_fails (xs ys : List String) (e : String)
    (l : List String) (hat : entry_attrs e = some l) (hlen : l.length < 10) :
    decode_entries (xs ++ e :: ys) = none ∧
    parse_effects (effect2priority_of effects_prioritized)
      "EFF=FRAME_SHIFT(HIGH|A)" = none := by
  constructor
  · induction xs with
    | nil =>
      rw [List.nil_append]
      simp only [decode_entries, hat]
      rw [if_neg (show ¬ l.length > 10 by omega),
        mkEffect_eq_none_of_length_lt hlen]
    | cons x xs ih =>
      rw [List.cons_append]
      cases hx : entry_attrs x with
      | none => simp only [decode_entries, hx]
      | some ax =>
        simp only [decode_entries, hx]
        by_cases hgt : ax.length > 10
        · rw [if_pos hgt]; exact ih
        · rw [if_neg hgt]
          cases hm : mkEffect ax with
          | none => rfl
          | some eff => rw [ih]; rfl
  · decide

/-- C10 witness: a concrete under-length entry. -/
theorem C10_short_entry_fails_witness :
    entry_attrs "FRAME_SHIFT(HIGH|A)" = some ["FRAME_SHIFT", "HIGH", "A"] ∧
    decode_entries ["FRAME_SHIFT(HIGH|A)"] = none :=
  ⟨by decide,
    (C10_short_entry_fails [] [] "FRAME_SHIFT(HIGH|A)" ["FRAME_SHIFT", "HIGH", "A"]
      (by decide) (by decide)).1⟩

/-- C9: with the highest-priority switch set, the accumulation has the
unstated precondition that every record decodes to at least one effect:
on a record with an empty decode the one-element placeholder list holds
the Python None marker, select_highest_priority_effect alone reports it
as a non-error, and the accumulation fails on the attribute access with
the aggregate tables untouched, instead of skipping the record. -/
theorem C9_empty_decode_highest_fails (effect2priority : List (String × Nat))
    (info : String) (st : AccState) (rest : List String)
    (h : parse_effects effect2priority info = some []) :
    select_highest_priority_effect effect2priority info = some none ∧
    count_transcript_effects_single effect2priority true st (info :: rest) =
      .error ("AttributeError: NoneType has no attribute gene", st) := by
  constructor
  · unfold select_highest_priority_effect
    rw [h]
    rfl
  · unfold count_transcript_effects_single count_one_variant
      select_highest_priority_effect
    rw [h]
    rfl

/-- C9 witness: a record whose only EFF entry carries error attributes and
is dropped, leaving an empty decode. -/
theorem C9_empty_decode_highest_fails_witness :
    parse_effects (effect2priority_of effects_prioritized)
      "EFF=FRAME_SHIFT(HIGH||||||GENE1|protein_coding|CODING|TRANS1|1)" =
      some [] ∧
    count_transcript_effects_single (effect2priority_of effects_prioritized) true
      ⟨[], []⟩ ["EFF=FRAME_SHIFT(HIGH||||||GENE1|protein_coding|CODING|TRANS1|1)"] =
      .error ("AttributeError: NoneType has no attribute gene", ⟨[], []⟩) :=
  ⟨by decide,
    (C9_empty_decode_highest_fails (effect2priority_of effects_prioritized)
      "EFF=FRAME_SHIFT(HIGH||||||GENE1|protein_coding|CODING|TRANS1|1)"
      ⟨[], []⟩ [] (by decide)).2⟩

/-- C7 fails on the code: with a two-field FORMAT and a one-value sample
column the colon-split arities differ, yet parse_samples raises nothing
and returns the truncated one-field mapping. -/
theorem C7_counterexample :
    parse_samples ⟨"A", "C", "GT:DP", [("S1", "0/1")]⟩ =
      [("S1", [("GT", "0/1")])] ∧
    (pySplitChar ':' "GT:DP").length ≠ (pySplitChar ':' "0/1").length := by
  decide

/-- C7 amended: building a SampleGenotype pairs the colon-split FORMAT
names with the colon-split sample values by zip, which truncates to the
shorter list; no arity check is performed and no error is possible, the
per-sample mapping simply covers the first min of the two lengths pairs. -/
theorem C7_zip_truncates (v : Variant) (sample sval : String)
    (h : dictLast v.samples sample = some sval) :
    ∃ f2v, dictLast (parse_samples v) sample = some f2v ∧
      f2v.length =
        min (pySplitChar ':' v.FORMAT).length (pySplitChar ':' sval).length ∧
      ∀ p ∈ f2v, p ∈ (pySplitChar ':' v.FORMAT).zip (pySplitChar ':' sval) := by
  refine ⟨(pySplitChar ':' v.FORMAT).zip (pySplitChar ':' sval), ?_, ?_, ?_⟩
  · have hmap : parse_samples v =
        v.samples.map (fun p => (p.1,
          (fun (_ val : String) =>
            (pySplitChar ':' v.FORMAT).zip (pySplitChar ':' val)) p.1 p.2)) := rfl
    rw [hmap, dictLast_map (fun _ val =>
      (pySplitChar ':' v.FORMAT).zip (pySplitChar ':' val)) v.samples sample, h]
    rfl
  · exact List.length_zip _ _
  · intro p hp
    exact hp

/-- C7 witness: concrete unequal arities. -/
theorem C7_zip_truncates_witness :
    ∃ f2v, dictLast (parse_samples ⟨"A", "C", "GT:DP", [("S1", "0/1")]⟩) "S1" =
        some f2v ∧
      f2v.length = min (pySplitChar ':' "GT:DP").length
        (pySplitChar ':' "0/1").length ∧
      ∀ p ∈ f2v, p ∈ (pySplitChar ':' "GT:DP").zip (pySplitChar ':' "0/1") :=
  C7_zip_truncates ⟨"A", "C", "GT:DP", [("S1", "0/1")]⟩ "S1" "0/1" (by decide)

/-- C8 fails on the code: the token -1 is numeric and denotes no valid
0-based position in the two-element candidate allele list, yet genotype
resolution returns a base string, because Python indexing accepts the
negative index and yields the last allele. -/
theorem C8_counterexample :
    get_sample_gt ⟨"A", "C", "GT", [("S1", "-1/0")]⟩ "S1" false = some "A/C" ∧
    pyInt "-1" = some (-1) ∧
    ("A" :: pySplitChar ',' "C").length = 2 := by
  decide

/-- C8 amended: for every genotype token other than the dot, resolution
fails whenever the token is non-numeric or its parsed index i falls
outside the Python index range of the n candidate alleles, that is when
n ≤ i or i < -n; a numeric token with -n ≤ i < 0 does not fail and
instead selects the base at position n + i by Python negative indexing. -/
theorem C8_bad_token_fails (v : Variant) (sample : String) (phased : Bool)
    (f2v : List (String × String)) (gt a : String)
    (hs : dictLast (parse_samples v) sample = some f2v)
    (hgt : dictLast f2v "GT" = some gt)
    (hmem : a ∈ pySplitChar (if phased then '|' else '/') gt)
    (hdot : a ≠ ".")
    (hbad : pyInt a = none ∨ ∃ i : Int, pyInt a = some i ∧
      (((v.REF :: pySplitChar ',' v.ALT).length : Int) ≤ i ∨
        i < -(((v.REF :: pySplitChar ',' v.ALT).length : Int)))) :
    get_sample_gt v sample phased = none := by
  have hnone : (fun a => if a = "." then some "N"
      else (pyInt a).bind (pyIndex (v.REF :: pySplitChar ',' v.ALT))) a = none := by
    show (if a = "." then some "N"
      else (pyInt a).bind (pyIndex (v.REF :: pySplitChar ',' v.ALT))) = none
    rw [if_neg hdot]
    rcases hbad with hn | ⟨i, hi, hout⟩
    · rw [hn]; rfl
    · rw [hi]
      show pyIndex (v.REF :: pySplitChar ',' v.ALT) i = none
      unfold pyIndex
      rcases hout with hge | hlt
      · rw [if_pos (by omega : (0 : Int) ≤ i), List.get?_eq_none]
        omega
      · rw [if_neg (by omega : ¬ (0 : Int) ≤ i),
          if_neg (by omega : ¬ (-i).toNat ≤ (v.REF :: pySplitChar ',' v.ALT).length)]
  unfold get_sample_gt
  simp only [hs, hgt]
  rw [optMapList_eq_none_of_mem hmem hnone]

/-- C8 witness: a concrete numeric out-of-range token. -/
theorem C8_bad_token_fails_witness :
    get_sample_gt ⟨"A", "C", "GT", [("S1", "5/0")]⟩ "S1" false = none :=
  C8_bad_token_fails ⟨"A", "C", "GT", [("S1", "5/0")]⟩ "S1" false [("GT", "5/0")]
    "5/0" "5" (by decide) (by decide) (by decide) (by decide)
    (Or.inr ⟨5, by decide, Or.inl (by decide)⟩)

/-- Claim-side genotype substitution following the specification words:
the dot token maps to N and every other token is read as a nonnegative
0-based index into the candidate allele list, with no negative indexing. -/
def spec_subst (possible : List String) (a : String) : Option String :=
  if a = "." then some "N"
  else (pyInt a).bind (fun i => if 0 ≤ i then possible.get? i.toNat else none)

theorem spec_subst_agrees (possible : List String) (a b : String)
    (h : spec_subst possible a = some b) :
    (if a = "." then some "N" else (pyInt a).bind (pyIndex possible)) = some b := by
  unfold spec_subst at h
  by_cases hdot : a = "."
  · rw [if_pos hdot] at h ⊢
    exact h
  · rw [if_neg hdot] at h ⊢
    cases hi : pyInt a with
    | none => rw [hi] at h; cases h
    | some i =>
      rw [hi] at h
      show pyIndex possible i = some b
      have h2 : (if 0 ≤ i then possible.get? i.toNat else none) = some b := h
      by_cases hpos : 0 ≤ i
      · rw [if_pos hpos] at h2
        unfold pyIndex
        rw [if_pos hpos]
        exact h2
      · rw [if_neg hpos] at h2
        cases h2

/-- C4: over genotype tokens that are the no-call dot or denote a valid
nonnegative 0-based index, resolution substitutes each token with the
base at that index in the REF-then-ALT candidate list; when unphased the
substituted base list is sorted lexicographically and joined with slash,
and when phased the original order is preserved and joined with pipe;
the two concrete specification examples follow. -/
theorem C4_genotype_resolution (v : Variant) (sample : String)
    (f2v : List (String × String)) (gt : String)
    (hs : dictLast (parse_samples v) sample = some f2v)
    (hgt : dictLast f2v "GT" = some gt) :
    (∀ bases, optMapList (spec_subst (v.REF :: pySplitChar ',' v.ALT))
        (pySplitChar '/' gt) = some bases →
      get_sample_gt v sample false = some (pyJoin "/" (pySortStrings bases))) ∧
    (∀ bases, optMapList (spec_subst (v.REF :: pySplitChar ',' v.ALT))
        (pySplitChar '|' gt) = some bases →
      get_sample_gt v sample true = some (pyJoin "|" bases)) ∧
    get_sample_gt ⟨"A", "C", "GT", [("S1", "0/1")]⟩ "S1" false = some "A/C" ∧
    get_sample_gt ⟨"A", "C", "GT", [("S1", "1|0")]⟩ "S1" true = some "C|A" := by
  refine ⟨?_, ?_, by decide, by decide⟩
  · intro bases hb
    have hcode := optMapList_congr
      (fun a _ b hab => spec_subst_agrees _ a b hab) hb
    unfold get_sample_gt
    simp only [hs, hgt, Bool.false_eq_true, if_false, if_true, ite_false, ite_true]
    rw [hcode]
  · intro bases hb
    have hcode := optMapList_congr
      (fun a _ b hab => spec_subst_agrees _ a b hab) hb
    unfold get_sample_gt
    simp only [hs, hgt, Bool.false_eq_true, if_false, if_true, ite_false, ite_true]
    rw [hcode]

/-- C4 witness: the unphased specification example through the general
parts of the theorem. -/
theorem C4_genotype_resolution_witness :
    get_sample_gt ⟨"A", "C", "GT", [("S1", "0/1")]⟩ "S1" false =
      some (pyJoin "/" (pySortStrings ["A", "C"])) :=
  (C4_genotype_resolution ⟨"A", "C", "GT", [("S1", "0/1")]⟩ "S1" [("GT", "0/1")]
    "0/1" (by decide) (by decide)).1 ["A", "C"] (by decide)

theorem jump2variants_skip_metas :
    ∀ (metas : List String), (∀ l ∈ metas, is_meta l = true) →
      ∀ (line : String), is_meta line = false → ∀ (rest : List String),
        jump2variants (metas ++ line :: rest) =
          (set_column_names line).map (fun cols => (cols, rest)) := by
  intro metas
  induction metas with
  | nil =>
    intro _ line hline rest
    rw [List.nil_append]
    unfold jump2variants
    simp only [hline, Bool.false_eq_true, if_false, ite_false]
  | cons m ms ih =>
    intro hm line hline rest
    rw [List.cons_append]
    unfold jump2variants
    simp only [hm m (List.mem_cons_self m ms), if_true, ite_true]
    exact ih (fun l hl => hm l (List.mem_cons_of_mem m hl)) line hline rest

theorem is_header_true_take3 {line : String} (h : is_header line = some true) :
    (pySplitWs (pyStrip (String.mk (line.toList.drop 1)))).take 3 =
      ["CHROM", "POS", "ID"] := by
  unfold is_header at h
  split at h
  · cases h
  · split at h
    · cases h
    · rcases htoks : pySplitWs (pyStrip (String.mk (line.toList.drop 1))) with
        _ | ⟨t0, _ | ⟨t1, _ | ⟨t2, ts⟩⟩⟩ <;> simp only [htoks] at h
      · cases h
      · split at h
        · cases h
        · cases h
      · split at h
        · cases h
        · split at h
          · cases h
          · cases h
      · split at h
        · cases h
        · split at h
          · cases h
          · split at h
            · cases h
            · rename_i h0 h1 h2
              rw [not_ne_iff.mp h0, not_ne_iff.mp h1, not_ne_iff.mp h2]
              rfl

/-- C5: jump2variants consumes and discards every leading meta line; the
first non-meta line must be a header line, with hash prefix and first
three whitespace tokens CHROM POS ID, or the operation fails; on success
the schema equals the token list of the header line, the remaining lines
follow unread, and the sample names are the schema columns from index 9
onward in order; the concrete specification example follows. -/
theorem C5_advance_to_data (metas : List String) (line : String)
    (rest : List String)
    (hm : ∀ l ∈ metas, is_meta l = true) (hline : is_meta line = false) :
    jump2variants (metas ++ line :: rest) =
      (set_column_names line).map (fun cols => (cols, rest)) ∧
    (is_header line ≠ some true → set_column_names line = none) ∧
    (∀ cols, set_column_names line = some cols →
      is_header line = some true ∧
      cols = pySplitWs (pyStrip (String.mk (line.toList.drop 1))) ∧
      cols.take 3 = ["CHROM", "POS", "ID"] ∧
      get_sample_names cols = cols.drop 9) ∧
    jump2variants
      ["##fileformat=VCFv4.1",
       "#CHROM POS ID REF ALT QUAL FILTER INFO FORMAT S1 S2", "row"] =
      some (["CHROM", "POS", "ID", "REF", "ALT", "QUAL", "FILTER", "INFO",
        "FORMAT", "S1", "S2"], ["row"]) ∧
    get_sample_names ["CHROM", "POS", "ID", "REF", "ALT", "QUAL", "FILTER",
      "INFO", "FORMAT", "S1", "S2"] = ["S1", "S2"] := by
  refine ⟨jump2variants_skip_metas metas hm line hline rest, ?_, ?_, by decide,
    by decide⟩
  · intro hnot
    unfold set_column_names
    cases hh : is_header line with
    | none => rfl
    | some b =>
      cases b with
      | false => rfl
      | true => exact absurd hh hnot
  · intro cols hc
    unfold set_column_names at hc
    cases hh : is_header line with
    | none => rw [hh] at hc; cases hc
    | some b =>
      cases b with
      | false => rw [hh] at hc; cases hc
      | true =>
        rw [hh] at hc
        have hcols : cols = pySplitWs (pyStrip (String.mk (line.toList.drop 1))) := by
          cases hc; rfl
        exact ⟨rfl, hcols, by rw [hcols]; exact is_header_true_take3 hh, rfl⟩

/-- C5 witness: the concrete meta, header and data lines. -/
theorem C5_advance_to_data_witness :
    jump2variants
      ["##fileformat=VCFv4.1",
       "#CHROM POS ID REF ALT QUAL FILTER INFO FORMAT S1 S2", "row"] =
      (set_column_names "#CHROM POS ID REF ALT QUAL FILTER INFO FORMAT S1 S2").map
        (fun cols => (cols, ["row"])) :=
  (C5_advance_to_data ["##fileformat=VCFv4.1"]
    "#CHROM POS ID REF ALT QUAL FILTER INFO FORMAT S1 S2" ["row"]
    (by decide) (by decide)).1

theorem decode_entries_skips_long (e : String) (l : List String)
    (hat : entry_attrs e = some l) (hlen : l.length > 10) :
    ∀ xs ys : List String,
      decode_entries (xs ++ e :: ys) = decode_entries (xs ++ ys) := by
  intro xs
  induction xs with
  | nil =>
    intro ys
    rw [List.nil_append, List.nil_append]
    simp only [decode_entries, hat]
    rw [if_pos hlen]
  | cons x xs ih =>
    intro ys
    rw [List.cons_append, List.cons_append]
    cases hx : entry_attrs x with
    | none => simp only [decode_entries, hx]
    | some ax =>
      simp only [decode_entries, hx]
      by_cases hgt : ax.length > 10
      · rw [if_pos hgt, if_pos hgt]
        exact ih ys
      · rw [if_neg hgt, if_neg hgt]
        cases hm : mkEffect ax with
        | none => rfl
        | some eff => rw [ih ys]

/-- C3: decoded effects come out sorted ascending by priority rank; an
effect entry whose attribute count exceeds ten is silently dropped
wherever it sits, leaving the rest of the decode unchanged; and the two
concrete specification examples hold: an entry with eleven pipe
attributes decodes to the empty effect sequence, and a valid
ten-attribute entry decodes to the single expected Effect. -/
theorem C3_decode_sorted_and_drops :
    (∀ (effect2priority : List (String × Nat)) (info : String)
        (effs : List Effect),
      parse_effects effect2priority info = some effs →
      List.Pairwise (fun a b : Effect => ∀ ra rb,
        dictLast effect2priority a.effect = some ra →
        dictLast effect2priority b.effect = some rb → ra ≤ rb) effs) ∧
    (∀ (e : String) (l : List String), entry_attrs e = some l →
      l.length > 10 → ∀ xs ys : List String,
      decode_entries (xs ++ e :: ys) = decode_entries (xs ++ ys)) ∧
    parse_effects (effect2priority_of effects_prioritized)
      "EFF=FRAME_SHIFT(HIGH||||||GENE1|protein_coding|CODING|TRANS1|1)" =
      some [] ∧
    parse_effects (effect2priority_of effects_prioritized)
      "EFF=FRAME_SHIFT(HIGH||||GENE1|protein_coding|CODING|TRANS1|1)" =
      some [⟨"FRAME_SHIFT", "HIGH", "", "", "", "GENE1", "protein_coding",
        "CODING", "TRANS1", "1"⟩] := by
  refine ⟨?_, decode_entries_skips_long, by decide, by decide⟩
  intro e2p info effs hp
  unfold parse_effects at hp
  cases he : extract_eff info with
  | none => simp only [he] at hp; cases hp
  | some s =>
    simp only [he] at hp
    cases hd : decode_entries (pySplitChar ',' s) with
    | none => simp only [hd] at hp; cases hp
    | some effects =>
      simp only [hd] at hp
      cases hk : optMapList (fun e =>
          (dictLast e2p e.effect).map (fun r => (e, r))) effects with
      | none => simp only [hk] at hp; cases hp
      | some keyed =>
        simp only [hk] at hp
        have heffs : effs =
            (List.insertionSort (fun x y : Effect × Nat => x.2 ≤ y.2) keyed).map
              Prod.fst := by
          cases hp; rfl
        have hkeys : ∀ p ∈ keyed, dictLast e2p p.1.effect = some p.2 := by
          intro p hpmem
          obtain ⟨a, _, hfa⟩ := forall₂_mem_right (optMapList_forall₂ hk) hpmem
          obtain ⟨r, hr, hpr⟩ := Option.map_eq_some'.mp hfa
          rw [← hpr]
          exact hr
        haveI : IsTotal (Effect × Nat) (fun x y : Effect × Nat => x.2 ≤ y.2) :=
          ⟨fun a b => Nat.le_total a.2 b.2⟩
        haveI : IsTrans (Effect × Nat) (fun x y : Effect × Nat => x.2 ≤ y.2) :=
          ⟨fun _ _ _ h1 h2 => Nat.le_trans h1 h2⟩
        have hsorted :=
          List.sorted_insertionSort (fun x y : Effect × Nat => x.2 ≤ y.2) keyed
        have hperm :=
          List.perm_insertionSort (fun x y : Effect × Nat => x.2 ≤ y.2) keyed
        rw [heffs, List.pairwise_map]
        refine List.Pairwise.imp_of_mem ?_ hsorted
        intro a b ha hb hab ra rb hra hrb
        have ha2 := hkeys a (hperm.mem_iff.mp ha)
        have hb2 := hkeys b (hperm.mem_iff.mp hb)
        rw [hra] at ha2
        rw [hrb] at hb2
        have hra2 : ra = a.2 := Option.some.inj ha2
        have hrb2 : rb = b.2 := Option.some.inj hb2
        rw [hra2, hrb2]
        exact hab

/-- C3 witness: the sortedness part applied to a concrete two-entry
record and the drop part applied to a concrete over-length entry. -/
theorem C3_decode_sorted_and_drops_witness :
    List.Pairwise (fun a b : Effect => ∀ ra rb,
      dictLast (effect2priority_of effects_prioritized) a.effect = some ra →
      dictLast (effect2priority_of effects_prioritized) b.effect = some rb →
      ra ≤ rb)
      [⟨"STOP_GAINED", "HIGH", "x", "y", "z", "GENE1", "protein_coding",
        "CODING", "TRANS2", "2"⟩,
       ⟨"INTRON", "MODIFIER", "", "", "", "GENE1", "protein_coding", "CODING",
        "TRANS1", "1"⟩] ∧
    decode_entries
      ["FRAME_SHIFT(HIGH||||||GENE1|protein_coding|CODING|TRANS1|1)",
       "INTRON(MODIFIER||||GENE1|protein_coding|CODING|TRANS1|1)"] =
      decode_entries ["INTRON(MODIFIER||||GENE1|protein_coding|CODING|TRANS1|1)"] :=
  ⟨C3_decode_sorted_and_drops.1 (effect2priority_of effects_prioritized)
      ("EFF=INTRON(MODIFIER||||GENE1|protein_coding|CODING|TRANS1|1)," ++
        "STOP_GAINED(HIGH|x|y|z|GENE1|protein_coding|CODING|TRANS2|2)") _
      (by decide),
    C3_decode_sorted_and_drops.2.1
      "FRAME_SHIFT(HIGH||||||GENE1|protein_coding|CODING|TRANS1|1)"
      ["FRAME_SHIFT", "HIGH", "", "", "", "", "", "GENE1", "protein_coding",
        "CODING", "TRANS1", "1"] (by decide) (by decide) []
      ["INTRON(MODIFIER||||GENE1|protein_coding|CODING|TRANS1|1)"]⟩

theorem dictLast_append_single {α : Type} (l : List (String × α)) (k2 : String)
    (v2 : α) (k : String) :
    dictLast (l ++ [(k2, v2)]) k =
      if k2 = k then some v2 else dictLast l k := by
  induction l with
  | nil =>
    simp only [List.nil_append, dictLast]
  | cons p t ih =>
    have hstep : dictLast ((p :: t) ++ [(k2, v2)]) k =
        match dictLast (t ++ [(k2, v2)]) k with
        | some v => some v
        | none => if p.1 = k then some p.2 else none := rfl
    rw [hstep, ih]
    by_cases hk : k2 = k
    · rw [if_pos hk, if_pos hk]
    · rw [if_neg hk, if_neg hk]
      rfl

theorem count_effect_impact_mono {st st2 : AccState} {e : Effect} {k v : String}
    (h : count_effect st e = .ok st2)
    (hk : dictLast st.effect2impact k = some v) :
    dictLast st2.effect2impact k = some v := by
  unfold count_effect at h
  cases hd : dictLast st.effect2impact e.effect with
  | none =>
    simp only [hd] at h
    cases h
    show dictLast (st.effect2impact ++ [(e.effect, e.impact)]) k = some v
    rw [dictLast_append_single]
    have hne : e.effect ≠ k := by
      intro hx
      rw [hx] at hd
      rw [hd] at hk
      cases hk
    rw [if_neg hne]
    exact hk
  | some imp =>
    simp only [hd] at h
    by_cases he : imp = e.impact
    · rw [if_pos he] at h
      cases h
      exact hk
    · rw [if_neg he] at h
      cases h

theorem count_opt_effects_impact_mono :
    ∀ {es : List (Option Effect)} {st st2 : AccState} {k v : String},
      count_opt_effects st es = .ok st2 →
      dictLast st.effect2impact k = some v →
      dictLast st2.effect2impact k = some v := by
  intro es
  induction es with
  | nil =>
    intro st st2 k v h hk
    cases h
    exact hk
  | cons o es ih =>
    intro st st2 k v h hk
    cases o with
    | none =>
      simp only [count_opt_effects] at h
      cases h
    | some e =>
      simp only [count_opt_effects] at h
      cases hce : count_effect st e with
      | ok st3 =>
        simp only [hce] at h
        exact ih h (count_effect_impact_mono hce hk)
      | error err =>
        simp only [hce] at h
        cases h

theorem count_one_variant_impact_mono {e2p : List (String × Nat)} {hp : Bool}
    {st st2 : AccState} {info : String} {k v : String}
    (h : count_one_variant e2p hp st info = .ok st2)
    (hk : dictLast st.effect2impact k = some v) :
    dictLast st2.effect2impact k = some v := by
  unfold count_one_variant at h
  split at h
  · cases hsel : select_highest_priority_effect e2p info with
    | none =>
      simp only [hsel] at h
      cases h
    | some ho =>
      simp only [hsel] at h
      exact count_opt_effects_impact_mono h hk
  · cases hpe : parse_effects e2p info with
    | none =>
      simp only [hpe] at h
      cases h
    | some effs =>
      simp only [hpe] at h
      exact count_opt_effects_impact_mono h hk

theorem count_single_impact_mono {e2p : List (String × Nat)} {hp : Bool} :
    ∀ {infos : List String} {st st2 : AccState} {k v : String},
      count_transcript_effects_single e2p hp st infos = .ok st2 →
      dictLast st.effect2impact k = some v →
      dictLast st2.effect2impact k = some v := by
  intro infos
  induction infos with
  | nil =>
    intro st st2 k v h hk
    cases h
    exact hk
  | cons info infos ih =>
    intro st st2 k v h hk
    simp only [count_transcript_effects_single] at h
    cases hcv : count_one_variant e2p hp st info with
    | ok st3 =>
      simp only [hcv] at h
      exact ih h (count_one_variant_impact_mono hcv hk)
    | error err =>
      simp only [hcv] at h
      cases h

theorem count_opt_effects_append (xs ys : List (Option Effect)) :
    ∀ st : AccState,
      count_opt_effects st (xs ++ ys) =
        match count_opt_effects st xs with
        | .ok st2 => count_opt_effects st2 ys
        | .error err => .error err := by
  induction xs with
  | nil => intro st; rfl
  | cons o xs ih =>
    intro st
    rw [List.cons_append]
    cases o with
    | none => simp only [count_opt_effects]
    | some e =>
      cases hce : count_effect st e with
      | ok st2 =>
        simp only [count_opt_effects, hce]
        exact ih st2
      | error err => simp only [count_opt_effects, hce]

theorem count_single_append (e2p : List (String × Nat)) (hp : Bool)
    (xs ys : List String) :
    ∀ st : AccState,
      count_transcript_effects_single e2p hp st (xs ++ ys) =
        match count_transcript_effects_single e2p hp st xs with
        | .ok st2 => count_transcript_effects_single e2p hp st2 ys
        | .error err => .error err := by
  induction xs with
  | nil => intro st; rfl
  | cons info xs ih =>
    intro st
    rw [List.cons_append]
    cases hcv : count_one_variant e2p hp st info with
    | ok st2 =>
      simp only [count_transcript_effects_single, hcv]
      exact ih st2
    | error err => simp only [count_transcript_effects_single, hcv]

/-- C2: after a first stream records impact I1 for effect type E, a second
stream whose decode reaches an effect of type E with a different impact
I2 aborts the scan at the conflict: the run over the full second stream
equals the run truncated right after the conflicting record, so no
further counts from the second stream are recorded, the result is the
sys.exit error, and the retained impact for E at the abort is still the
first observed I1. -/
theorem C2_conflicting_impact_aborts (e2p : List (String × Nat))
    (st0 st1 st2 st3 : AccState) (infos1 pre post : List String) (cinfo : String)
    (E I1 I2 fc cc ac g gb cd tr ex : String) (ea eb : List Effect)
    (_h1 : count_transcript_effects_single e2p false st0 infos1 = .ok st1)
    (hI : dictLast st1.effect2impact E = some I1)
    (h2 : count_transcript_effects_single e2p false st1 pre = .ok st2)
    (hdec : parse_effects e2p cinfo =
      some (ea ++ ⟨E, I2, fc, cc, ac, g, gb, cd, tr, ex⟩ :: eb))
    (h3 : count_opt_effects st2 (ea.map some) = .ok st3)
    (hne : I2 ≠ I1) :
    count_transcript_effects_single e2p false st1 (pre ++ cinfo :: post) =
      count_transcript_effects_single e2p false st1 (pre ++ [cinfo]) ∧
    ∃ m stE, count_transcript_effects_single e2p false st1 (pre ++ [cinfo]) =
        .error (m, stE) ∧ dictLast stE.effect2impact E = some I1 := by
  have hI2 : dictLast st2.effect2impact E = some I1 := count_single_impact_mono h2 hI
  have hI3 : dictLast st3.effect2impact E = some I1 :=
    count_opt_effects_impact_mono h3 hI2
  have hce : count_effect st3 (⟨E, I2, fc, cc, ac, g, gb, cd, tr, ex⟩ : Effect) =
      .error ("Multiple impacts for effect " ++ E ++ ": " ++ I2 ++ ", " ++ I1 ++
        "\nExiting.", ⟨incr_count st3.g2t2e2c g tr E, st3.effect2impact⟩) := by
    unfold count_effect
    simp only [hI3]
    rw [if_neg (fun hx => hne hx.symm)]
  have hcv : count_one_variant e2p false st2 cinfo =
      .error ("Multiple impacts for effect " ++ E ++ ": " ++ I2 ++ ", " ++ I1 ++
        "\nExiting.", ⟨incr_count st3.g2t2e2c g tr E, st3.effect2impact⟩) := by
    unfold count_one_variant
    simp only [Bool.false_eq_true, if_false, ite_false, hdec]
    rw [List.map_append, List.map_cons, count_opt_effects_append]
    simp only [h3]
    simp only [count_opt_effects, hce]
  constructor
  · rw [count_single_append, count_single_append]
    simp only [h2]
    simp only [count_transcript_effects_single, hcv]
  · refine ⟨"Multiple impacts for effect " ++ E ++ ": " ++ I2 ++ ", " ++ I1 ++
      "\nExiting.", ⟨incr_count st3.g2t2e2c g tr E, st3.effect2impact⟩, ?_, hI3⟩
    rw [count_single_append]
    simp only [h2]
    simp only [count_transcript_effects_single, hcv]

/-- C2 witness: a first stream recording HIGH for STOP_GAINED from the
empty tables, then a second stream whose first record reports Moderate
for the same effect type; a further record after the conflict is never
processed. -/
theorem C2_conflicting_impact_aborts_witness :
    count_transcript_effects_single (effect2priority_of effects_prioritized) false
      ⟨[("G1", [("T1", [("STOP_GAINED", 1)])])], [("STOP_GAINED", "HIGH")]⟩
      ([] ++ "EFF=STOP_GAINED(Moderate||||G1|pc|CODING|T1|1)" ::
        ["EFF=STOP_GAINED(HIGH||||G2|pc|CODING|T2|1)"]) =
      count_transcript_effects_single (effect2priority_of effects_prioritized) false
        ⟨[("G1", [("T1", [("STOP_GAINED", 1)])])], [("STOP_GAINED", "HIGH")]⟩
        ([] ++ ["EFF=STOP_GAINED(Moderate||||G1|pc|CODING|T1|1)"]) ∧
    ∃ m stE,
      count_transcript_effects_single (effect2priority_of effects_prioritized) false
        ⟨[("G1", [("T1", [("STOP_GAINED", 1)])])], [("STOP_GAINED", "HIGH")]⟩
        ([] ++ ["EFF=STOP_GAINED(Moderate||||G1|pc|CODING|T1|1)"]) =
        .error (m, stE) ∧
      dictLast stE.effect2impact "STOP_GAINED" = some "HIGH" :=
  C2_conflicting_impact_aborts (effect2priority_of effects_prioritized)
    ⟨[], []⟩
    ⟨[("G1", [("T1", [("STOP_GAINED", 1)])])], [("STOP_GAINED", "HIGH")]⟩
    ⟨[("G1", [("T1", [("STOP_GAINED", 1)])])], [("STOP_GAINED", "HIGH")]⟩
    ⟨[("G1", [("T1", [("STOP_GAINED", 1)])])], [("STOP_GAINED", "HIGH")]⟩
    ["EFF=STOP_GAINED(HIGH||||G1|pc|CODING|T1|1)"] []
    ["EFF=STOP_GAINED(HIGH||||G2|pc|CODING|T2|1)"]
    "EFF=STOP_GAINED(Moderate||||G1|pc|CODING|T1|1)"
    "STOP_GAINED" "HIGH" "Moderate" "" "" "" "G1" "pc" "CODING" "T1" "1" [] []
    rfl (by decide) rfl rfl rfl (by decide)

theorem dictLast_eq_some_mem_keys {α : Type} {l : List (String × α)} {k : String}
    {v : α} (h : dictLast l k = some v) : k ∈ l.map Prod.fst := by
  by_contra hc
  rw [(dictLast_eq_none_iff l k).mpr hc] at h
  cases h

theorem dictLast_cons_ne {α : Type} {k1 k : String} (h : ¬ k1 = k) (v : α)
    (l : List (String × α)) : dictLast ((k1, v) :: l) k = dictLast l k := by
  show (match dictLast l k with
    | some w => some w
    | none => if k1 = k then some v else none) = dictLast l k
  cases dictLast l k with
  | some w => rfl
  | none => rw [if_neg h]

theorem dictLast_cons_of_none {α : Type} {k : String} {l : List (String × α)}
    (h : dictLast l k = none) (k1 : String) (v : α) :
    dictLast ((k1, v) :: l) k = if k1 = k then some v else none := by
  show (match dictLast l k with
    | some w => some w
    | none => if k1 = k then some v else none) = _
  rw [h]

theorem dictLast_cons_of_some {α : Type} {l : List (String × α)} {k : String}
    {v : α} (h : dictLast l k = some v) (p : String × α) :
    dictLast (p :: l) k = some v := by
  show (match dictLast l k with
    | some w => some w
    | none => if p.1 = k then some p.2 else none) = some v
  rw [h]

theorem select_genes_keys_subset (e2i : List (String × String))
    (t2len : List (String × Nat)) :
    ∀ (l : List (String × List (String × List (String × Nat))))
      (res : List (String × String)),
      select_genes e2i t2len l = some res →
      ∀ k ∈ res.map Prod.fst, k ∈ l.map Prod.fst := by
  intro l
  induction l with
  | nil =>
    intro res h k hk
    cases h
    cases hk
  | cons g rest ih =>
    intro res h k hk
    simp only [select_genes] at h
    cases hg : get_transcript_w_most_high_impact e2i g.2 t2len with
    | none =>
      simp only [hg] at h
      cases h
    | some r0 =>
      simp only [hg] at h
      cases hrest : select_genes e2i t2len rest with
      | none =>
        simp only [hrest] at h
        cases h
      | some res2 =>
        simp only [hrest] at h
        have hsub : ∀ k2 ∈ res2.map Prod.fst, k2 ∈ (g :: rest).map Prod.fst :=
          fun k2 hk2 => List.mem_cons_of_mem _ (ih res2 hrest k2 hk2)
        cases r0 with
        | none =>
          cases h
          exact hsub k hk
        | some t0 =>
          have h2 : (if t0 = "" then some res2 else some ((g.1, t0) :: res2)) =
              some res := h
          by_cases ht0 : t0 = ""
          · rw [if_pos ht0] at h2
            cases h2
            exact hsub k hk
          · rw [if_neg ht0] at h2
            cases h2
            simp only [List.map_cons, List.mem_cons] at hk
            rcases hk with hk1 | hk2
            · simp only [List.map_cons, List.mem_cons]
              exact Or.inl hk1
            · exact hsub k hk2

theorem select_genes_lookup (e2i : List (String × String))
    (t2len : List (String × Nat)) :
    ∀ (l : List (String × List (String × List (String × Nat))))
      (res : List (String × String)) (G : String)
      (tec : List (String × List (String × Nat))),
      (l.map Prod.fst).Nodup →
      dictLast l G = some tec →
      select_genes e2i t2len l = some res →
      ∃ r, get_transcript_w_most_high_impact e2i tec t2len = some r ∧
        dictLast res G = (match r with
          | none => none
          | some t => if t = "" then none else some t) := by
  intro l
  induction l with
  | nil =>
    intro res G tec _ hG _
    cases hG
  | cons g rest ih =>
    intro res G tec hnd hG hsel
    simp only [select_genes] at hsel
    cases hg : get_transcript_w_most_high_impact e2i g.2 t2len with
    | none =>
      simp only [hg] at hsel
      cases hsel
    | some r0 =>
      simp only [hg] at hsel
      cases hrest : select_genes e2i t2len rest with
      | none =>
        simp only [hrest] at hsel
        cases hsel
      | some res2 =>
        simp only [hrest] at hsel
        have hnd2 : (rest.map Prod.fst).Nodup := by
          simp only [List.map_cons, List.nodup_cons] at hnd
          exact hnd.2
        have hheadkey : g.1 ∉ rest.map Prod.fst := by
          simp only [List.map_cons, List.nodup_cons] at hnd
          exact hnd.1
        cases hrG : dictLast rest G with
        | some tec2 =>
          have htec : tec2 = tec := by
            have hcons : dictLast (g :: rest) G = some tec2 :=
              dictLast_cons_of_some hrG g
            rw [hG] at hcons
            exact (Option.some.inj hcons).symm
          obtain ⟨r, hr, hlook⟩ := ih res2 G tec2 hnd2 hrG hrest
          rw [htec] at hr
          have hne : ¬ g.1 = G := by
            intro hx
            exact hheadkey (hx ▸ dictLast_eq_some_mem_keys hrG)
          refine ⟨r, hr, ?_⟩
          cases r0 with
          | none =>
            cases hsel
            exact hlook
          | some t0 =>
            have hsel2 : (if t0 = "" then some res2
                else some ((g.1, t0) :: res2)) = some res := hsel
            by_cases ht0 : t0 = ""
            · rw [if_pos ht0] at hsel2
              cases hsel2
              exact hlook
            · rw [if_neg ht0] at hsel2
              cases hsel2
              rw [dictLast_cons_ne hne]
              exact hlook
        | none =>
          by_cases hgG : g.1 = G
          · have htec : tec = g.2 := by
              have h0 := dictLast_cons_of_none hrG g.1 g.2
              rw [if_pos hgG] at h0
              have heq : some tec = some g.2 := by
                rw [← hG]
                exact h0
              exact Option.some.inj heq
            have hres2 : dictLast res2 G = none := by
              rw [dictLast_eq_none_iff]
              intro hc
              exact absurd (hgG ▸ select_genes_keys_subset e2i t2len rest res2
                hrest G hc) hheadkey
            rw [htec]
            refine ⟨r0, hg, ?_⟩
            cases r0 with
            | none =>
              cases hsel
              exact hres2
            | some t0 =>
              have hsel2 : (if t0 = "" then some res2
                  else some ((g.1, t0) :: res2)) = some res := hsel
              show dictLast res G = if t0 = "" then none else some t0
              by_cases ht0 : t0 = ""
              · rw [if_pos ht0] at hsel2
                cases hsel2
                rw [if_pos ht0]
                exact hres2
              · rw [if_neg ht0] at hsel2
                cases hsel2
                rw [if_neg ht0, dictLast_cons_of_none hres2, if_pos hgG]
          · exfalso
            have h0 := dictLast_cons_of_none hrG g.1 g.2
            rw [if_neg hgG] at h0
            have : some tec = none := by
              rw [← hG]
              exact h0
            cases this

theorem getT_no_usable (e2i : List (String × String))
    (tec : List (String × List (String × Nat))) (t2len : List (String × Nat))
    (h : tec.filter (fun te => (dictLast t2len te.1).isSome) = []) :
    get_transcript_w_most_high_impact e2i tec t2len = some none := by
  simp [get_transcript_w_most_high_impact, h]

theorem getT_unique_max (e2i : List (String × String))
    (tec : List (String × List (String × Nat))) (t2len : List (String × Nat))
    (sc : List (String × Nat)) (t : String) (s : Nat)
    (hsc : optMapList (fun te => (get_high_impact_count e2i te.2).map
        (fun c => (te.1, c)))
      (tec.filter (fun te => (dictLast t2len te.1).isSome)) = some sc)
    (hmem : (t, s) ∈ sc)
    (hmax : ∀ p ∈ sc, p.2 ≤ s)
    (huni : sc.countP (fun p => p.2 = s) = 1) :
    get_transcript_w_most_high_impact e2i tec t2len = some (some t) := by
  have hscne : sc ≠ [] := List.ne_nil_of_mem hmem
  have husne : tec.filter (fun te => (dictLast t2len te.1).isSome) ≠ [] := by
    intro hx
    rw [hx] at hsc
    cases hsc
    exact hscne rfl
  have hlen : ¬ (tec.filter (fun te => (dictLast t2len te.1).isSome)).length = 0 :=
    fun hx => husne (List.length_eq_zero.mp hx)
  obtain ⟨top, rest2, hsort⟩ : ∃ top rest2, sortByScoreDesc sc = top :: rest2 := by
    cases hx : sortByScoreDesc sc with
    | nil => exact absurd hx (sortDesc_ne_nil hscne)
    | cons a b => exact ⟨a, b, rfl⟩
  obtain ⟨htopmem, htopmax⟩ := sortDesc_head_max hsort
  have htop2 : top.2 = s := Nat.le_antisymm (hmax top htopmem) (htopmax (t, s) hmem)
  have hperm := sortDesc_perm sc
  have htiedeq : (top :: rest2).filter (fun x => x.2 = top.2) = [(t, s)] := by
    have hlen1 : ((top :: rest2).filter (fun x => decide (x.2 = top.2))).length = 1 := by
      rw [← List.countP_eq_length_filter, ← hsort]
      simp only [htop2]
      rw [hperm.countP_eq]
      exact huni
    have hmemf : (t, s) ∈ (top :: rest2).filter (fun x => decide (x.2 = top.2)) := by
      rw [List.mem_filter]
      refine ⟨?_, by simp [htop2]⟩
      rw [← hsort]
      exact hperm.mem_iff.mpr hmem
    obtain ⟨x, hx⟩ := List.length_eq_one.mp hlen1
    rw [hx] at hmemf
    rw [hx]
    cases List.mem_singleton.mp hmemf
    rfl
  simp only [get_transcript_w_most_high_impact]
  rw [if_neg hlen]
  simp only [hsc]
  simp only [hsort]
  rw [htiedeq]

theorem getT_tie_longest (e2i : List (String × String))
    (tec : List (String × List (String × Nat))) (t2len : List (String × Nat))
    (sc : List (String × Nat)) (t : String) (s L : Nat)
    (hsc : optMapList (fun te => (get_high_impact_count e2i te.2).map
        (fun c => (te.1, c)))
      (tec.filter (fun te => (dictLast t2len te.1).isSome)) = some sc)
    (hmem : (t, s) ∈ sc)
    (hmax : ∀ p ∈ sc, p.2 ≤ s)
    (hLen : dictLast t2len t = some L)
    (hstrict : ∀ p ∈ sc, p.2 = s → p.1 ≠ t →
      ∃ lp, dictLast t2len p.1 = some lp ∧ lp < L) :
    get_transcript_w_most_high_impact e2i tec t2len = some (some t) := by
  have hscne : sc ≠ [] := List.ne_nil_of_mem hmem
  have husne : tec.filter (fun te => (dictLast t2len te.1).isSome) ≠ [] := by
    intro hx
    rw [hx] at hsc
    cases hsc
    exact hscne rfl
  have hlen : ¬ (tec.filter (fun te => (dictLast t2len te.1).isSome)).length = 0 :=
    fun hx => husne (List.length_eq_zero.mp hx)
  obtain ⟨top, rest2, hsort⟩ : ∃ top rest2, sortByScoreDesc sc = top :: rest2 := by
    cases hx : sortByScoreDesc sc with
    | nil => exact absurd hx (sortDesc_ne_nil hscne)
    | cons a b => exact ⟨a, b, rfl⟩
  obtain ⟨htopmem, htopmax⟩ := sortDesc_head_max hsort
  have htop2 : top.2 = s := Nat.le_antisymm (hmax top htopmem) (htopmax (t, s) hmem)
  have hperm := sortDesc_perm sc
  have husable : ∀ p ∈ sc, (dictLast t2len p.1).isSome := by
    intro p hp
    obtain ⟨u, hu, hfu⟩ := forall₂_mem_right (optMapList_forall₂ hsc) hp
    obtain ⟨c, _, hpc⟩ := Option.map_eq_some'.mp hfu
    have hup := (List.mem_filter.mp hu).2
    rw [← hpc]
    exact hup
  have hsubsc : ∀ p ∈ top :: rest2, p ∈ sc := by
    intro p hp
    rw [← hsort] at hp
    exact hperm.mem_iff.mp hp
  have htmem : (t, s) ∈ (top :: rest2).filter (fun x => decide (x.2 = top.2)) := by
    rw [List.mem_filter]
    refine ⟨?_, by simp [htop2]⟩
    rw [← hsort]
    exact hperm.mem_iff.mpr hmem
  simp only [get_transcript_w_most_high_impact]
  rw [if_neg hlen]
  simp only [hsc]
  simp only [hsort]
  cases htied : (top :: rest2).filter (fun x => decide (x.2 = top.2)) with
  | nil =>
    rw [htied] at htmem
    cases htmem
  | cons x1 tl1 =>
    rw [htied] at htmem
    cases tl1 with
    | nil =>
      have hx1 : x1 = (t, s) := (List.mem_singleton.mp htmem).symm
      rw [hx1]
    | cons x2 tl2 =>
      have htiedsub : ∀ p ∈ x1 :: x2 :: tl2, p ∈ sc ∧ p.2 = s := by
        intro p hp
        rw [← htied] at hp
        have hfm := List.mem_filter.mp hp
        refine ⟨hsubsc p hfm.1, ?_⟩
        have hps := of_decide_eq_true hfm.2
        rw [htop2] at hps
        exact hps
      have hlsome : ∀ p ∈ x1 :: x2 :: tl2,
          ((fun tc => (dictLast t2len tc.1).map (fun n => (tc.1, n))) p).isSome := by
        intro p hp
        have hs2 := husable p (htiedsub p hp).1
        cases hd : dictLast t2len p.1 with
        | none => rw [hd] at hs2; cases hs2
        | some n => simp [hd]
      obtain ⟨wl, hwl⟩ := optMapList_of_forall_isSome hlsome
      have hTL : (t, L) ∈ wl := by
        obtain ⟨b, hb, hfb⟩ := forall₂_mem_left (optMapList_forall₂ hwl) htmem
        have hfb2 : (dictLast t2len t).map (fun n => (t, n)) = some b := hfb
        rw [hLen] at hfb2
        cases hfb2
        exact hb
      have hwlne : wl ≠ [] := List.ne_nil_of_mem hTL
      obtain ⟨best, rest3, hsort2⟩ : ∃ best rest3,
          sortByScoreDesc wl = best :: rest3 := by
        cases hx : sortByScoreDesc wl with
        | nil => exact absurd hx (sortDesc_ne_nil hwlne)
        | cons a b => exact ⟨a, b, rfl⟩
      obtain ⟨hbestmem, hbestmax⟩ := sortDesc_head_max hsort2
      have hLle : L ≤ best.2 := hbestmax (t, L) hTL
      obtain ⟨p, hp, hfp⟩ := forall₂_mem_right (optMapList_forall₂ hwl) hbestmem
      obtain ⟨lp, hlp, hplp⟩ := Option.map_eq_some'.mp hfp
      have hbest1 : best.1 = p.1 := by rw [← hplp]
      have hbest2 : best.2 = lp := by rw [← hplp]
      by_cases hpt : p.1 = t
      · rw [hwl]
        simp only [hsort2]
        rw [hbest1, hpt]
      · exfalso
        have hpsc := htiedsub p hp
        obtain ⟨lp2, hlp2, hlt⟩ := hstrict p hpsc.1 hpsc.2 hpt
        rw [hlp] at hlp2
        cases hlp2
        rw [hbest2] at hLle
        omega

/-- C1 fails on the code: gene G has exactly one transcript, named by the
empty string, present in the length table and scoring one HIGH count, so
by the claim the gene should map to that transcript; but the Python
truthiness test on the returned name skips the gene entirely and the
result map is empty. -/
theorem C1_counterexample :
    select_transcript_for_gene [("G", [("", [("STOP_GAINED", 1)])])]
      [("STOP_GAINED", "HIGH")] [("", 100)] = some [] ∧
    dictLast [("", 100)] "" = some 100 ∧
    get_transcript_w_most_high_impact [("STOP_GAINED", "HIGH")]
      [("", [("STOP_GAINED", 1)])] [("", 100)] = some (some "") := by
  refine ⟨by decide, by decide, by decide⟩

/-- C1 amended: for every gene of g2t2e2c, the selection first restricts
the transcripts of the gene to those present in transcript2length; if
none remain the gene is absent from the result keys; otherwise, among
the usable transcripts scored by the summed counts of effects whose
impact through effect2impact is exactly HIGH, the unique maximal
transcript is chosen, and on a score tie the strictly longest tied
transcript is chosen — in both cases provided the winning name is not
the empty string, since a winning empty name makes the gene drop out of
the result exactly as if it had no usable transcript. -/
theorem C1_select_transcript
    (g2t2e2c : List (String × List (String × List (String × Nat))))
    (effect2impact : List (String × String)) (transcript2len : List (String × Nat))
    (res : List (String × String)) (G : String)
    (tec : List (String × List (String × Nat)))
    (hnd : (g2t2e2c.map Prod.fst).Nodup)
    (hG : dictLast g2t2e2c G = some tec)
    (hres : select_transcript_for_gene g2t2e2c effect2impact transcript2len =
      some res) :
    (tec.filter (fun te => (dictLast transcript2len te.1).isSome) = [] →
      dictLast res G = none) ∧
    (∀ sc t s,
      optMapList (fun te => (get_high_impact_count effect2impact te.2).map
          (fun c => (te.1, c)))
        (tec.filter (fun te => (dictLast transcript2len te.1).isSome)) = some sc →
      (t, s) ∈ sc → (∀ p ∈ sc, p.2 ≤ s) →
      sc.countP (fun p => p.2 = s) = 1 → t ≠ "" →
      dictLast res G = some t) ∧
    (∀ sc t s L,
      optMapList (fun te => (get_high_impact_count effect2impact te.2).map
          (fun c => (te.1, c)))
        (tec.filter (fun te => (dictLast transcript2len te.1).isSome)) = some sc →
      (t, s) ∈ sc → (∀ p ∈ sc, p.2 ≤ s) →
      dictLast transcript2len t = some L →
      (∀ p ∈ sc, p.2 = s → p.1 ≠ t →
        ∃ lp, dictLast transcript2len p.1 = some lp ∧ lp < L) →
      t ≠ "" →
      dictLast res G = some t) := by
  obtain ⟨r, hr, hlook⟩ :=
    select_genes_lookup effect2impact transcript2len g2t2e2c res G tec hnd hG hres
  refine ⟨?_, ?_, ?_⟩
  · intro h
    rw [getT_no_usable effect2impact tec transcript2len h] at hr
    cases hr
    exact hlook
  · intro sc t s hsc hmem hmax huni ht
    rw [getT_unique_max effect2impact tec transcript2len sc t s hsc hmem hmax
      huni] at hr
    cases hr
    rw [hlook]
    show (if t = "" then none else some t) = some t
    rw [if_neg ht]
  · intro sc t s L hsc hmem hmax hLen hstrict ht
    rw [getT_tie_longest effect2impact tec transcript2len sc t s L hsc hmem hmax
      hLen hstrict] at hr
    cases hr
    rw [hlook]
    show (if t = "" then none else some t) = some t
    rw [if_neg ht]

/-- C1 witness: the two specification examples, the score tie resolved by
length in favour of T2 and the strict score maximum selecting T1
regardless of length, and a gene with no usable transcript absent. -/
theorem C1_select_transcript_witness :
    dictLast [("G", "T2")] "G" = some "T2" ∧
    dictLast [("G", "T1")] "G" = some "T1" ∧
    dictLast ([] : List (String × String)) "G" = none :=
  ⟨(C1_select_transcript [("G", [("T1", [("STOP_GAINED", 3)]),
        ("T2", [("STOP_GAINED", 3)])])]
      [("STOP_GAINED", "HIGH")] [("T1", 100), ("T2", 200)] [("G", "T2")] "G"
      [("T1", [("STOP_GAINED", 3)]), ("T2", [("STOP_GAINED", 3)])]
      (by decide) (by decide) (by decide)).2.2
      [("T1", 3), ("T2", 3)] "T2" 3 200 (by decide) (by decide) (by decide)
      (by decide)
      (by
        intro p hp hps hpt
        rcases List.mem_cons.mp hp with h1 | h2
        · subst h1
          exact ⟨100, by decide, by decide⟩
        · rcases List.mem_cons.mp h2 with h3 | h4
          · subst h3
            exact absurd rfl hpt
          · cases h4)
      (by decide),
    (C1_select_transcript [("G", [("T1", [("STOP_GAINED", 5)]),
        ("T2", [("STOP_GAINED", 3)])])]
      [("STOP_GAINED", "HIGH")] [("T1", 100), ("T2", 200)] [("G", "T1")] "G"
      [("T1", [("STOP_GAINED", 5)]), ("T2", [("STOP_GAINED", 3)])]
      (by decide) (by decide) (by decide)).2.1
      [("T1", 5), ("T2", 3)] "T1" 5 (by decide) (by decide) (by decide)
      (by decide) (by decide),
    (C1_select_transcript [("G", [("T1", [("STOP_GAINED", 3)])])]
      [("STOP_GAINED", "HIGH")] [("T9", 50)] [] "G"
      [("T1", [("STOP_GAINED", 3)])]
      (by decide) (by decide) (by decide)).1 (by decide)⟩

end NgsVcf
